import Mathlib

/-!
Verification development for the Gameboy emulator sources.

The definitions below are a shallow embedding of the Rust sources:
`src/utils/bit_ops.rs`, `src/emulator/cpu/registers.rs`,
`src/emulator/memory.rs`, `src/emulator/cpu/opcodes.rs`,
`src/emulator/cpu/mod.rs` and `src/emulator/ppu.rs`.

Machine integers are embedded as `Nat` with explicit truncation (`% 256`,
`% 0x10000`) exactly where the Rust code wraps; code that can panic is
embedded with `Option`/`Except` result types, a `none`/`error` standing for
the panic.
-/

set_option maxRecDepth 10000
set_option maxHeartbeats 2000000

namespace GB

/-! ## Bit operations (src/utils/bit_ops.rs, `BitOps` for `u8`)

`get_bit` is `(self & (1 << bit)) >> bit`, `set_bit` is `self |= 1 << bit`,
`clear_bit` is `self &= !(1 << bit)`; `!` on a `u8` complements within
8 bits, i.e. xors with 0xFF. -/

def getBit (x bit : Nat) : Nat := (x &&& (1 <<< bit)) >>> bit

def setBit (x bit : Nat) : Nat := x ||| (1 <<< bit)

/-- Bitwise not on a `u8` value. -/
def notU8 (x : Nat) : Nat := 0xFF ^^^ x

def clearBit (x bit : Nat) : Nat := x &&& notU8 (1 <<< bit)

/-! ## Register file (src/emulator/cpu/registers.rs) -/

structure Registers where
  a : Nat
  b : Nat
  c : Nat
  d : Nat
  e : Nat
  f : Nat
  h : Nat
  l : Nat
deriving DecidableEq, Repr

def Registers.new : Registers := ⟨0, 0, 0, 0, 0, 0, 0, 0⟩

def Registers.af (r : Registers) : Nat := (r.a <<< 8) ||| r.f

def Registers.set_af (r : Registers) (value : Nat) : Registers :=
  { r with a := (value &&& 0xFF00) >>> 8, f := value &&& 0xF0 }

def Registers.bc (r : Registers) : Nat := (r.b <<< 8) ||| r.c

def Registers.set_bc (r : Registers) (value : Nat) : Registers :=
  { r with b := (value &&& 0xFF00) >>> 8, c := value &&& 0xFF }

def Registers.de (r : Registers) : Nat := (r.d <<< 8) ||| r.e

def Registers.set_de (r : Registers) (value : Nat) : Registers :=
  { r with d := (value &&& 0xFF00) >>> 8, e := value &&& 0xFF }

def Registers.hl (r : Registers) : Nat := (r.h <<< 8) ||| r.l

def Registers.set_hl (r : Registers) (value : Nat) : Registers :=
  { r with h := (value &&& 0xFF00) >>> 8, l := value &&& 0xFF }

def Registers.set_z_flag (r : Registers) : Registers := { r with f := setBit r.f 7 }

def Registers.clear_z_flag (r : Registers) : Registers := { r with f := clearBit r.f 7 }

def Registers.get_z_flag (r : Registers) : Nat := getBit r.f 7

def Registers.set_n_flag (r : Registers) : Registers := { r with f := setBit r.f 6 }

def Registers.clear_n_flag (r : Registers) : Registers := { r with f := clearBit r.f 6 }

def Registers.get_n_flag (r : Registers) : Nat := getBit r.f 6

def Registers.set_h_flag (r : Registers) : Registers := { r with f := setBit r.f 5 }

def Registers.clear_h_flag (r : Registers) : Registers := { r with f := clearBit r.f 5 }

def Registers.get_h_flag (r : Registers) : Nat := getBit r.f 5

def Registers.set_c_flag (r : Registers) : Registers := { r with f := setBit r.f 4 }

def Registers.clear_c_flag (r : Registers) : Registers := { r with f := clearBit r.f 4 }

def Registers.get_c_flag (r : Registers) : Nat := getBit r.f 4

/-! ### Bit-level helper lemmas -/

theorem getBit_eq_testBit (x k : Nat) : getBit x k = (x.testBit k).toNat := by
  unfold getBit
  rw [Nat.shiftLeft_eq, one_mul, Nat.and_two_pow, Nat.shiftRight_eq_div_pow]
  exact Nat.mul_div_cancel _ (Nat.pos_pow_of_pos k (by norm_num))

theorem getBit_le_one (x k : Nat) : getBit x k ≤ 1 := by
  rw [getBit_eq_testBit]; cases x.testBit k <;> simp

theorem getBit_setBit_self (x k : Nat) : getBit (setBit x k) k = 1 := by
  rw [getBit_eq_testBit]
  unfold setBit
  rw [Nat.shiftLeft_eq, one_mul]
  simp [Nat.testBit_or, Nat.testBit_two_pow_self]

theorem getBit_clearBit_self (x k : Nat) (hk : k ≤ 7) :
    getBit (clearBit x k) k = 0 := by
  rw [getBit_eq_testBit]
  unfold clearBit notU8
  rw [Nat.shiftLeft_eq, one_mul]
  have h255 : (0xFF : Nat).testBit k = true := by
    interval_cases k <;> decide
  simp [Nat.testBit_and, Nat.testBit_xor, Nat.testBit_two_pow_self, h255]

theorem getBit_setBit_other (x k j : Nat) (hjk : j ≠ k) :
    getBit (setBit x k) j = getBit x j := by
  rw [getBit_eq_testBit, getBit_eq_testBit]
  unfold setBit
  rw [Nat.shiftLeft_eq, one_mul]
  simp [Nat.testBit_or, Nat.testBit_two_pow, (Ne.symm hjk)]

theorem getBit_clearBit_other (x k j : Nat) (hjk : j ≠ k) (hj : j ≤ 7) :
    getBit (clearBit x k) j = getBit x j := by
  rw [getBit_eq_testBit, getBit_eq_testBit]
  unfold clearBit notU8
  rw [Nat.shiftLeft_eq, one_mul]
  have h255 : (0xFF : Nat).testBit j = true := by
    interval_cases j <;> decide
  simp [Nat.testBit_and, Nat.testBit_xor, Nat.testBit_two_pow, h255, (Ne.symm hjk)]

/-- Bits below 4 survive `% 16` reading: `x % 16 = 0` says bits 0-3 are 0. -/
theorem mod16_eq_zero_iff (x : Nat) : x % 16 = 0 ↔ ∀ i < 4, x.testBit i = false := by
  constructor
  · intro hx i hi
    have h := Nat.testBit_mod_two_pow x 4 i
    rw [show (16 : Nat) = 2 ^ 4 by norm_num] at hx
    rw [hx] at h
    simp [Nat.zero_testBit, hi] at h
    exact h
  · intro hb
    have : ∀ i, (x % 2 ^ 4).testBit i = Nat.testBit 0 i := by
      intro i
      rw [Nat.testBit_mod_two_pow, Nat.zero_testBit]
      by_cases hi : i < 4
      · simp [hi, hb i hi]
      · simp [hi]
    have := Nat.eq_of_testBit_eq this
    simpa using this

theorem setBit_mod16 (x k : Nat) (hk : 4 ≤ k) (hx : x % 16 = 0) :
    setBit x k % 16 = 0 := by
  rw [mod16_eq_zero_iff] at hx ⊢
  intro i hi
  unfold setBit
  rw [Nat.shiftLeft_eq, one_mul]
  have : (2 ^ k).testBit i = false := by
    rw [Nat.testBit_two_pow]
    simp; omega
  simp [Nat.testBit_or, hx i hi, this]

theorem and_mod16 (x m : Nat) (hx : x % 16 = 0) : (x &&& m) % 16 = 0 := by
  rw [mod16_eq_zero_iff] at hx ⊢
  intro i hi
  simp [Nat.testBit_and, hx i hi]

theorem and_mask_mod16 (v : Nat) : (v &&& 0xF0) % 16 = 0 := by
  rw [mod16_eq_zero_iff]
  intro i hi
  have : (0xF0 : Nat).testBit i = false := by interval_cases i <;> decide
  simp [Nat.testBit_and, this]

/-- C9: from an F with zero low nibble, each of the eight flag set/clear
operations keeps the low nibble of F zero, and `set_af` forces the low
nibble of F to zero from an arbitrary 16-bit input. -/
theorem flag_low_nibble_invariant (r : Registers) (v : Nat) :
    (r.f % 16 = 0 →
      (r.set_z_flag).f % 16 = 0 ∧ (r.clear_z_flag).f % 16 = 0 ∧
      (r.set_n_flag).f % 16 = 0 ∧ (r.clear_n_flag).f % 16 = 0 ∧
      (r.set_h_flag).f % 16 = 0 ∧ (r.clear_h_flag).f % 16 = 0 ∧
      (r.set_c_flag).f % 16 = 0 ∧ (r.clear_c_flag).f % 16 = 0) ∧
    (r.set_af v).f % 16 = 0 := by
  refine ⟨fun hf => ?_, ?_⟩
  · refine ⟨?_, ?_, ?_, ?_, ?_, ?_, ?_, ?_⟩ <;>
      simp only [Registers.set_z_flag, Registers.clear_z_flag, Registers.set_n_flag,
        Registers.clear_n_flag, Registers.set_h_flag, Registers.clear_h_flag,
        Registers.set_c_flag, Registers.clear_c_flag, clearBit] <;>
      first
        | exact setBit_mod16 _ _ (by norm_num) hf
        | exact and_mod16 _ _ hf
  · exact and_mask_mod16 v

/-! ## Memory bus (src/emulator/memory.rs)

The bus owns eleven `MemoryBlock`s (two ROM blocks, VRAM, cartridge RAM,
two WRAM halves, echo RAM, OAM, the unusable gap, I/O registers, HRAM), a
list of switchable ROM banks and the optional cartridge byte stream.
Block-local reads/writes index a `Vec<u8>`; all bus-level accesses stay in
bounds because the block sizes match the address ranges, so block data is
embedded as a total function. `write_u8` is `Option`-valued: `none` stands
for the panics reachable through `set_rom_bank` (bank index out of range)
and `unmap_boot_rom` (no cartridge loaded). -/

inductive BlockType where
  | Rom
  | Vram
  | Ram
  | Wram
  | EchoRam
  | Oam
  | NotUsable
  | IORegisters
  | Hram
deriving DecidableEq, Repr

structure MemoryBlock where
  block_type : BlockType
  data : Nat → Nat
  size : Nat

def blockSizeOf : BlockType → Nat
  | .Rom => 0x4000
  | .Vram => 0x2000
  | .Ram => 0x2000
  | .Wram => 0x1000
  | .EchoRam => 0x1E00
  | .Oam => 0x00A0
  | .NotUsable => 0x0060
  | .IORegisters => 0x80
  | .Hram => 0x80

/-- `MemoryBlock::new`: the backing store is `vec![0xFF; size]`. -/
def MemoryBlock.new (block_type : BlockType) : MemoryBlock :=
  ⟨block_type, fun _ => 0xFF, blockSizeOf block_type⟩

def MemoryBlock.read (b : MemoryBlock) (addr : Nat) : Nat := b.data addr

def MemoryBlock.write (b : MemoryBlock) (addr value : Nat) : MemoryBlock :=
  { b with data := Function.update b.data addr value }

structure MemoryBus where
  size : Nat
  memory : Fin 11 → MemoryBlock
  rom_banks : List MemoryBlock
  rom : Option (Nat → Nat)

/-- The block types of the eleven-entry `memory` array, in construction
order. -/
def busBlockType (i : Fin 11) : BlockType :=
  match i.val with
  | 0 => .Rom
  | 1 => .Rom
  | 2 => .Vram
  | 3 => .Ram
  | 4 => .Wram
  | 5 => .Wram
  | 6 => .EchoRam
  | 7 => .Oam
  | 8 => .NotUsable
  | 9 => .IORegisters
  | _ => .Hram

def MemoryBus.new (size : Nat) : MemoryBus :=
  { size := size
    memory := fun i => MemoryBlock.new (busBlockType i)
    rom_banks := []
    rom := none }

/-- `unmap_boot_rom`: `load_range(0x0000..0x0100, &rom.bytes()[0..0x100])`;
the range lies inside block 0, so only block 0's first 0x100 bytes change.
`rom.as_ref().unwrap()` panics when no cartridge is loaded (`none`). -/
def MemoryBus.unmap_boot_rom (m : MemoryBus) : Option MemoryBus :=
  match m.rom with
  | none => none
  | some replacement =>
    let blk0 := m.memory 0
    let data2 : Nat → Nat := fun a => if a < 0x100 then replacement a else blk0.data a
    some { m with memory := Function.update m.memory 0 (MemoryBlock.mk blk0.block_type data2 blk0.size) }

/-- `set_rom_bank`: a full byte of 0 is remapped to 1, otherwise the low
5 bits select; `rom_banks[bank]` panics (`none`) when out of range. -/
def MemoryBus.set_rom_bank (m : MemoryBus) (bank_number : Nat) : Option MemoryBus :=
  let bank := if bank_number = 0 then 1 else bank_number &&& 0x1F
  match m.rom_banks.get? bank with
  | none => none
  | some blk => some { m with memory := Function.update m.memory 1 blk }

def addr_to_block_addr (addr : Nat) : Fin 11 × Nat :=
  if addr ≤ 0x3FFF then (0, addr)
  else if addr ≤ 0x7FFF then (1, addr - 0x4000)
  else if addr ≤ 0x9FFF then (2, addr - 0x8000)
  else if addr ≤ 0xBFFF then (3, addr - 0xA000)
  else if addr ≤ 0xCFFF then (4, addr - 0xC000)
  else if addr ≤ 0xDFFF then (5, addr - 0xD000)
  else if addr ≤ 0xFDFF then (6, addr - 0xE000)
  else if addr ≤ 0xFE9F then (7, addr - 0xFE00)
  else if addr ≤ 0xFEFF then (8, addr - 0xFEA0)
  else if addr ≤ 0xFF7F then (9, addr - 0xFF00)
  else (10, addr - 0xFF80)

def MemoryBus.read_u8 (m : MemoryBus) (addr : Nat) : Nat :=
  let ba := addr_to_block_addr addr
  (m.memory ba.1).read ba.2

/-- The final lines of `write_u8`: replace the addressed block by the block
with the byte stored. -/
def MemoryBus.writeBlock (m : MemoryBus) (addr value : Nat) : MemoryBus :=
  let ba := addr_to_block_addr addr
  { m with memory := Function.update m.memory ba.1 ((m.memory ba.1).write ba.2 value) }

def MemoryBus.write_u8 (m : MemoryBus) (addr value : Nat) : Option MemoryBus :=
  if 0x2000 ≤ addr ∧ addr ≤ 0x3FFF then m.set_rom_bank value
  else
    let value := if addr = 0xFF04 then 0 else value
    let after : Option MemoryBus := if addr = 0xFF50 then m.unmap_boot_rom else some m
    match after with
    | none => none
    | some m2 => some (m2.writeBlock addr value)

def MemoryBus.read_u16 (m : MemoryBus) (addr : Nat) : Nat :=
  let ba := addr_to_block_addr addr
  let lo := (m.memory ba.1).read ba.2
  let hi := (m.memory ba.1).read (ba.2 + 1)
  (hi <<< 8) ||| lo

/-! ### Address-decoding lemmas -/

/-- The base address of each block's range. -/
def blockBase (i : Fin 11) : Nat :=
  match i.val with
  | 0 => 0x0000
  | 1 => 0x4000
  | 2 => 0x8000
  | 3 => 0xA000
  | 4 => 0xC000
  | 5 => 0xD000
  | 6 => 0xE000
  | 7 => 0xFE00
  | 8 => 0xFEA0
  | 9 => 0xFF00
  | _ => 0xFF80

theorem atb_recover (addr : Nat) :
    blockBase (addr_to_block_addr addr).1 + (addr_to_block_addr addr).2 = addr := by
  unfold addr_to_block_addr
  repeat' split
  all_goals simp only [blockBase]
  all_goals omega

theorem atb_inj (a b : Nat) (h : addr_to_block_addr a = addr_to_block_addr b) :
    a = b := by
  have ra := atb_recover a
  have rb := atb_recover b
  rw [h] at ra
  omega

theorem write_u8_plain (m : MemoryBus) (addr value : Nat)
    (h1 : ¬(0x2000 ≤ addr ∧ addr ≤ 0x3FFF)) (h2 : addr ≠ 0xFF04) (h3 : addr ≠ 0xFF50) :
    m.write_u8 addr value = some (m.writeBlock addr value) := by
  unfold MemoryBus.write_u8
  rw [if_neg h1]
  simp [h2, h3]

theorem read_after_write_same (m : MemoryBus) (addr value : Nat) :
    (m.writeBlock addr value).read_u8 addr = value := by
  unfold MemoryBus.read_u8 MemoryBus.writeBlock MemoryBlock.write MemoryBlock.read
  simp only [Function.update_same]

theorem read_after_write_other (m : MemoryBus) (addr value b : Nat) (hne : b ≠ addr) :
    (m.writeBlock addr value).read_u8 b = m.read_u8 b := by
  unfold MemoryBus.read_u8 MemoryBus.writeBlock MemoryBlock.write MemoryBlock.read
  dsimp only
  by_cases hblk : (addr_to_block_addr b).1 = (addr_to_block_addr addr).1
  · have hoff : (addr_to_block_addr b).2 ≠ (addr_to_block_addr addr).2 := by
      intro he
      exact hne (atb_inj b addr (Prod.ext hblk he))
    rw [hblk, Function.update_same]
    dsimp only
    rw [Function.update_noteq hoff]
  · rw [Function.update_noteq hblk]

/-- C6 (counterexample): on the freshly constructed bus a read of the
unusable gap returns 0xFF, not 0, and a write to the gap is stored, not
discarded. -/
theorem unusable_gap_cex :
    (MemoryBus.new 0xFFFF).read_u8 0xFEA0 ≠ 0 ∧
    ((MemoryBus.new 0xFFFF).write_u8 0xFEA0 0x12).map
      (fun m2 => m2.read_u8 0xFEA0) = some 0x12 ∧ (0x12 : Nat) ≠ 0xFF := by
  refine ⟨by decide, ?_, by decide⟩
  rfl

/-- C6 (amended): reads of the unusable gap 0xFEA0-0xFEFF return the gap
block's stored byte — 0xFF on a fresh bus, not 0 — and writes to the gap
are stored (not no-ops): a subsequent read returns the written value. -/
theorem unusable_gap_amended (m : MemoryBus) (addr v : Nat)
    (h1 : 0xFEA0 ≤ addr) (h2 : addr ≤ 0xFEFF) :
    (MemoryBus.new 0xFFFF).read_u8 addr = 0xFF ∧
    ∃ m2, m.write_u8 addr v = some m2 ∧ m2.read_u8 addr = v := by
  constructor
  · rfl
  · refine ⟨_, write_u8_plain m addr v (by omega) (by omega) (by omega), ?_⟩
    exact read_after_write_same m addr v

/-- C6 (witness): the amended statement at the gap's first address. -/
theorem unusable_gap_witness :
    (MemoryBus.new 0xFFFF).read_u8 0xFEA0 = 0xFF ∧
    ∃ m2, (MemoryBus.new 0xFFFF).write_u8 0xFEA0 0x12 = some m2 ∧
      m2.read_u8 0xFEA0 = 0x12 :=
  unusable_gap_amended (MemoryBus.new 0xFFFF) 0xFEA0 0x12 (by norm_num) (by norm_num)

/-- C7: echo RAM does not mirror work RAM in this code — the echo region
has its own backing block, so after writing 0x12 at 0xC000 a read of
0xE000 still returns the echo block's 0xFF. -/
theorem echo_ram_not_mirrored_eval :
    ((MemoryBus.new 0xFFFF).write_u8 0xC000 0x12).map
      (fun m2 => (m2.read_u8 0xC000, m2.read_u8 0xE000)) = some (0x12, 0xFF) := by
  rfl

/-- A ROM bank filled with one byte value, for concrete bank-switch runs. -/
def bankBlock (v : Nat) : MemoryBlock := ⟨.Rom, fun _ => v, 0x4000⟩

/-- A bus in the state `load_rom` leaves for an MBC1 cartridge: four banks
loaded (the loader always creates four), cartridge bytes present. -/
def mbc1Bus : MemoryBus :=
  { MemoryBus.new 0xFFFF with
    rom_banks := [bankBlock 0xA0, bankBlock 0xA1, bankBlock 0xA2, bankBlock 0xA3]
    rom := some fun _ => 0 }

/-- C8 (counterexample): writing 0x20 to 0x2000 selects ROM bank 0 (its
low five bits are 0 but the byte is nonzero, so the remap to bank 1 does
not fire): the switchable region then reads bank 0's bytes. -/
theorem rom_bank_zero_cex :
    (mbc1Bus.write_u8 0x2000 0x20).map (fun m2 => m2.read_u8 0x4000) = some 0xA0 ∧
    mbc1Bus.rom_banks.get? 0 = some (bankBlock 0xA0) ∧ (0xA0 : Nat) ≠ 0xA1 := by
  refine ⟨rfl, rfl, by decide⟩

/-- C8 (amended): a write of v to 0x2000-0x3FFF replaces the switchable
block with `rom_banks[if v = 0 then 1 else v &&& 0x1F]` — so only the
exact byte 0 is remapped to bank 1, and a nonzero v with zero low five
bits selects bank 0 — and nothing else in the bus changes (in particular
the written value is not stored at the written address). -/
theorem rom_bank_select_amended (m : MemoryBus) (addr v : Nat) (blk : MemoryBlock)
    (ha1 : 0x2000 ≤ addr) (ha2 : addr ≤ 0x3FFF)
    (hb : m.rom_banks.get? (if v = 0 then 1 else v &&& 0x1F) = some blk) :
    m.write_u8 addr v = some { m with memory := Function.update m.memory 1 blk } := by
  unfold MemoryBus.write_u8
  rw [if_pos ⟨ha1, ha2⟩]
  unfold MemoryBus.set_rom_bank
  simp only [hb]

/-- C8 (witness): writing 2 on the concrete MBC1 bus selects bank 2. -/
theorem rom_bank_select_witness :
    mbc1Bus.write_u8 0x2000 2 =
      some { mbc1Bus with memory := Function.update mbc1Bus.memory 1 (bankBlock 0xA2) } :=
  rom_bank_select_amended mbc1Bus 0x2000 2 (bankBlock 0xA2) (by norm_num) (by norm_num) rfl

/-! ## Opcode tables (src/emulator/cpu/opcodes.rs)

The source builds two `HashMap<u8, Opcode>`s by inserting the entries of a
vector; all codes in each vector are distinct, so the map lookup is the
first (and only) list entry with the looked-up code. -/

inductive Register where
  | A
  | B
  | C
  | D
  | E
  | H
  | L
  | AF
  | BC
  | DE
  | HL
  | SP
deriving DecidableEq, Repr

inductive AddressingMode where
  | ImmediateRegister (r : Register)
  | AddressRegister (r : Register)
  | ImmediateU8
  | AddressHRAM
  | ImmediateI8
  | ImmediateU16
  | AddressU16
  | IoAdressOffset
  | None
deriving DecidableEq, Repr

structure Opcode where
  code : Nat
  asm : String
  bytes : Nat
  t_cycles : Nat
  lhs : AddressingMode
  rhs : AddressingMode
deriving Repr

def normal_opcodes : List Opcode := [
  -- Misc/Control instructions
  ⟨0x00, "NOP", 1, 4, .None, .None⟩,
  ⟨0x10, "STOP n8", 2, 4, .ImmediateU8, .None⟩,
  ⟨0x76, "HALT", 1, 4, .None, .None⟩,
  ⟨0xf3, "DI", 1, 4, .None, .None⟩,
  ⟨0xfb, "EI", 1, 4, .None, .None⟩,
  -- Jump/Call instructions
  ⟨0x18, "JR, e8", 2, 12, .None, .ImmediateI8⟩,
  ⟨0x20, "JR NZ, e8", 2, 8, .None, .ImmediateI8⟩,
  ⟨0x28, "JR Z, e8", 2, 8, .None, .ImmediateI8⟩,
  ⟨0xc3, "JP a16", 3, 16, .AddressU16, .None⟩,
  ⟨0xc8, "RET Z", 1, 8, .None, .None⟩,
  ⟨0xc9, "RET", 1, 16, .None, .None⟩,
  ⟨0xcd, "CALL a16", 3, 24, .AddressU16, .None⟩,
  -- 8-bit load instructions
  ⟨0x06, "LD B, n8", 2, 8, .ImmediateRegister .B, .ImmediateU8⟩,
  ⟨0x0e, "LD C, n8", 2, 8, .ImmediateRegister .C, .ImmediateU8⟩,
  ⟨0x16, "LD D, n8", 2, 8, .ImmediateRegister .D, .ImmediateU8⟩,
  ⟨0x1a, "LD A, [DE]", 1, 8, .ImmediateRegister .A, .AddressRegister .DE⟩,
  ⟨0x1e, "LD E, n8", 2, 8, .ImmediateRegister .E, .ImmediateU8⟩,
  ⟨0x22, "LD [HLI], A", 1, 8, .AddressRegister .HL, .ImmediateRegister .A⟩,
  ⟨0x2e, "LD L, n8", 2, 8, .ImmediateRegister .L, .ImmediateU8⟩,
  ⟨0x32, "LD [HL-], A", 1, 8, .AddressRegister .HL, .ImmediateRegister .A⟩,
  ⟨0x3e, "LD A, n8", 2, 8, .ImmediateRegister .A, .ImmediateU8⟩,
  ⟨0x4f, "LD C, A", 1, 8, .ImmediateRegister .C, .ImmediateRegister .A⟩,
  ⟨0x57, "LD D, A", 1, 4, .ImmediateRegister .D, .ImmediateRegister .A⟩,
  ⟨0x67, "LD H, A", 1, 4, .ImmediateRegister .H, .ImmediateRegister .A⟩,
  ⟨0x78, "LD A, B", 1, 4, .ImmediateRegister .A, .ImmediateRegister .B⟩,
  ⟨0x7b, "LD A, E", 1, 4, .ImmediateRegister .A, .ImmediateRegister .E⟩,
  ⟨0x7c, "LD A, H", 1, 4, .ImmediateRegister .A, .ImmediateRegister .H⟩,
  ⟨0x7d, "LD A, L", 1, 4, .ImmediateRegister .A, .ImmediateRegister .L⟩,
  ⟨0xe0, "LDH [a8], A", 2, 12, .AddressHRAM, .ImmediateRegister .A⟩,
  ⟨0xe2, "LD [C], A", 1, 8, .IoAdressOffset, .ImmediateRegister .A⟩,
  ⟨0xea, "LD [a16], A", 3, 16, .AddressU16, .ImmediateRegister .A⟩,
  ⟨0xf0, "LDH A, [a8]", 2, 12, .ImmediateRegister .A, .AddressHRAM⟩,
  ⟨0x77, "LD [HL], A", 1, 8, .AddressRegister .HL, .ImmediateRegister .A⟩,
  -- 16-bit load instructions
  ⟨0x01, "LD BC, n16", 3, 12, .ImmediateRegister .BC, .ImmediateU16⟩,
  ⟨0x11, "LD DE, n16", 3, 12, .ImmediateRegister .DE, .ImmediateU16⟩,
  ⟨0x21, "LD HL, n16", 3, 12, .ImmediateRegister .HL, .ImmediateU16⟩,
  ⟨0x31, "LD SP, n16", 3, 12, .ImmediateRegister .SP, .ImmediateU16⟩,
  ⟨0xc1, "POP BC", 1, 16, .ImmediateRegister .BC, .None⟩,
  ⟨0xc5, "PUSH BC", 1, 16, .ImmediateRegister .BC, .None⟩,
  -- 8-bit arithmetic/logical instructions
  ⟨0x04, "INC B", 1, 4, .ImmediateRegister .B, .None⟩,
  ⟨0x05, "DEC B", 1, 4, .ImmediateRegister .B, .None⟩,
  ⟨0x0c, "INC C", 1, 4, .ImmediateRegister .C, .None⟩,
  ⟨0x0d, "DEC C", 1, 4, .ImmediateRegister .C, .None⟩,
  ⟨0x13, "INC DE", 1, 8, .ImmediateRegister .DE, .None⟩,
  ⟨0x15, "DEC D", 1, 4, .ImmediateRegister .D, .None⟩,
  ⟨0x1d, "DEC E", 1, 4, .ImmediateRegister .E, .None⟩,
  ⟨0x23, "INC HL", 1, 8, .ImmediateRegister .HL, .None⟩,
  ⟨0x24, "INC H", 1, 4, .ImmediateRegister .H, .None⟩,
  ⟨0x3d, "DEC A", 1, 4, .ImmediateRegister .A, .None⟩,
  ⟨0x86, "ADD A, [HL]", 1, 8, .ImmediateRegister .A, .AddressRegister .HL⟩,
  ⟨0x90, "SUB A, B", 1, 4, .ImmediateRegister .A, .ImmediateRegister .B⟩,
  ⟨0xa8, "XOR A, B", 1, 4, .ImmediateRegister .A, .ImmediateRegister .B⟩,
  ⟨0xa9, "XOR A, C", 1, 4, .ImmediateRegister .A, .ImmediateRegister .C⟩,
  ⟨0xaa, "XOR A, D", 1, 4, .ImmediateRegister .A, .ImmediateRegister .D⟩,
  ⟨0xab, "XOR A, E", 1, 4, .ImmediateRegister .A, .ImmediateRegister .E⟩,
  ⟨0xac, "XOR A, H", 1, 4, .ImmediateRegister .A, .ImmediateRegister .H⟩,
  ⟨0xad, "XOR A, L", 1, 4, .ImmediateRegister .A, .ImmediateRegister .L⟩,
  ⟨0xae, "XOR A, [HL]", 1, 8, .ImmediateRegister .A, .AddressRegister .HL⟩,
  ⟨0xaf, "XOR A, A", 1, 4, .ImmediateRegister .A, .ImmediateRegister .A⟩,
  ⟨0xb0, "OR A, B", 1, 4, .ImmediateRegister .A, .ImmediateRegister .B⟩,
  ⟨0xb1, "OR A, C", 1, 4, .ImmediateRegister .A, .ImmediateRegister .C⟩,
  ⟨0xb2, "OR A, D", 1, 4, .ImmediateRegister .A, .ImmediateRegister .D⟩,
  ⟨0xb3, "OR A, E", 1, 4, .ImmediateRegister .A, .ImmediateRegister .E⟩,
  ⟨0xb4, "OR A, H", 1, 4, .ImmediateRegister .A, .ImmediateRegister .H⟩,
  ⟨0xb5, "OR A, L", 1, 4, .ImmediateRegister .A, .ImmediateRegister .L⟩,
  ⟨0xb6, "OR A, [HL]", 1, 8, .ImmediateRegister .A, .AddressRegister .HL⟩,
  ⟨0xb7, "OR A, A", 1, 4, .ImmediateRegister .A, .ImmediateRegister .A⟩,
  ⟨0xb8, "CP A, B", 1, 4, .ImmediateRegister .A, .ImmediateRegister .B⟩,
  ⟨0xb9, "CP A, C", 1, 4, .ImmediateRegister .A, .ImmediateRegister .C⟩,
  ⟨0xba, "CP A, D", 1, 4, .ImmediateRegister .A, .ImmediateRegister .D⟩,
  ⟨0xbb, "CP A, E", 1, 4, .ImmediateRegister .A, .ImmediateRegister .E⟩,
  ⟨0xbc, "CP A, H", 1, 4, .ImmediateRegister .A, .ImmediateRegister .H⟩,
  ⟨0xbd, "CP A, L", 1, 4, .ImmediateRegister .A, .ImmediateRegister .L⟩,
  ⟨0xbe, "CP A, [HL]", 1, 8, .ImmediateRegister .A, .AddressRegister .HL⟩,
  ⟨0xbf, "CP A, A", 1, 4, .ImmediateRegister .A, .ImmediateRegister .A⟩,
  ⟨0xfe, "CP A, n8", 2, 8, .ImmediateRegister .A, .ImmediateU8⟩,
  -- 16-bit arithmetic/logical instructions
  ⟨0x0b, "DEC BC", 1, 8, .ImmediateRegister .BC, .None⟩,
  -- 8-bit shift, rotate and bit instructions
  ⟨0x17, "RLA", 1, 4, .ImmediateRegister .A, .None⟩]

def prefixed_opcodes : List Opcode := [
  ⟨0x11, "RL C", 2, 8, .ImmediateRegister .C, .None⟩,
  ⟨0xbe, "RES 7, [HL]", 2, 16, .None, .AddressRegister .HL⟩,
  ⟨0x7c, "BIT 7, H", 2, 8, .None, .ImmediateRegister .H⟩,
  ⟨0x7e, "BIT 7, [HL]", 2, 12, .None, .AddressRegister .HL⟩]

def opcode_map_get (ops : List Opcode) (code : Nat) : Option Opcode :=
  ops.find? (fun op => op.code == code)

/-! ## CPU (src/emulator/cpu/mod.rs)

The `Cpu` owns the register file, SP, PC, the interrupt-master-enable flag
and the (shared) memory bus; the opcode maps are the fixed tables above and
the debugger only logs, so neither is part of the state.

`sp -= 1` / `sp += 1` in `push_stack`/`pop_stack` are embedded with
16-bit wrap-around (release overflow semantics), written `(sp + 0xFFFF) %
0x10000` / `(sp + 1) % 0x10000`. -/

structure Cpu where
  reg : Registers
  sp : Nat
  pc : Nat
  ime : Bool
  memory : MemoryBus

inductive CpuError where
  | OpcodeNotImplemented (code : Nat) (pfx : Bool)
  | UnrecognizedOpcode (code : Nat) (pfx : Bool)
  | OpcodeError (msg : String)
deriving DecidableEq, Repr

inductive Direction where
  | Left
  | Right
deriving DecidableEq, Repr

inductive DataType where
  | Address (addr : Nat)
  | ValueU8 (v : Nat)
  | ValueU16 (v : Nat)
  | ValueI8 (v : Int)
  | None
deriving DecidableEq, Repr

/-- A `u8` read back as an `i8`. -/
def i8OfU8 (b : Nat) : Int := if b < 128 then (b : Int) else (b : Int) - 256

/-- `get_data`; `none` is the `todo!` panic on `AddressRegister` of a
register other than BC/DE/HL. -/
def Cpu.get_data (c : Cpu) (addressing_mode : AddressingMode) : Option DataType :=
  match addressing_mode with
  | .ImmediateRegister r =>
    match r with
    | .A => some (.ValueU8 c.reg.a)
    | .B => some (.ValueU8 c.reg.b)
    | .C => some (.ValueU8 c.reg.c)
    | .D => some (.ValueU8 c.reg.d)
    | .E => some (.ValueU8 c.reg.e)
    | .H => some (.ValueU8 c.reg.h)
    | .L => some (.ValueU8 c.reg.l)
    | .AF => some (.ValueU16 c.reg.af)
    | .BC => some (.ValueU16 c.reg.bc)
    | .DE => some (.ValueU16 c.reg.de)
    | .HL => some (.ValueU16 c.reg.hl)
    | .SP => some (.ValueU16 c.sp)
  | .AddressRegister r =>
    match r with
    | .BC => some (.Address c.reg.bc)
    | .DE => some (.Address c.reg.de)
    | .HL => some (.Address c.reg.hl)
    | _ => none
  | .ImmediateU8 => some (.ValueU8 (c.memory.read_u8 ((c.pc + 1) % 0x10000)))
  | .AddressHRAM =>
    let hi : Nat := 0xFF <<< 8
    let lo : Nat := c.memory.read_u8 ((c.pc + 1) % 0x10000)
    some (.Address (hi ||| lo))
  | .ImmediateI8 => some (.ValueI8 (i8OfU8 (c.memory.read_u8 ((c.pc + 1) % 0x10000))))
  | .ImmediateU16 => some (.ValueU16 (c.memory.read_u16 ((c.pc + 1) % 0x10000)))
  | .AddressU16 => some (.Address (c.memory.read_u16 ((c.pc + 1) % 0x10000)))
  | .IoAdressOffset => some (.Address (0xFF00 + c.reg.c))
  | .None => some .None

def Cpu.push_stack (c : Cpu) (value : Nat) : Option Cpu :=
  let hi := (value &&& 0xFF00) >>> 8
  let lo := value &&& 0xFF
  let sp1 := (c.sp + 0xFFFF) % 0x10000
  match c.memory.write_u8 sp1 hi with
  | Option.none => none
  | some m1 =>
    let sp2 := (sp1 + 0xFFFF) % 0x10000
    match m1.write_u8 sp2 lo with
    | Option.none => none
    | some m2 => some { c with sp := sp2, memory := m2 }

def Cpu.pop_stack (c : Cpu) : Cpu × Nat :=
  let lo := c.memory.read_u8 c.sp
  let sp1 := (c.sp + 1) % 0x10000
  let hi := c.memory.read_u8 sp1
  let sp2 := (sp1 + 1) % 0x10000
  ({ c with sp := sp2 }, (hi <<< 8) ||| lo)

/-- `rotate`; `none` stands for the handler's panics (wrong operand kind)
and for panics inside `write_u8`. `u8` shifts wrap: `data << 1` is
`(data <<< 1) % 256`. -/
def Cpu.rotate (c : Cpu) (addressing_mode : AddressingMode) (direction : Direction)
    (update_z through_carry : Bool) : Option Cpu :=
  let dataOpt : Option Nat :=
    match c.get_data addressing_mode with
    | some (.ValueU8 value) => some value
    | some (.Address addr) => some (c.memory.read_u8 addr)
    | _ => none
  match dataOpt with
  | Option.none => none
  | some data =>
    let sb_nv : Nat × Nat :=
      match direction with
      | .Left =>
        let shifted_out_bit := getBit data 7
        let new_val := if through_carry
          then ((data <<< 1) % 256) ||| c.reg.get_c_flag
          else ((data <<< 1) % 256) ||| shifted_out_bit
        (shifted_out_bit, new_val)
      | .Right =>
        let shifted_out_bit := getBit data 0
        let new_val := if through_carry
          then (data >>> 1) ||| (c.reg.get_c_flag <<< 7)
          else (data >>> 1) ||| (shifted_out_bit <<< 7)
        (shifted_out_bit, new_val)
    let shifted_out_bit := sb_nv.1
    let new_val := sb_nv.2
    let reg1 := if update_z && (new_val == 0) then c.reg.set_z_flag else c.reg.clear_z_flag
    let reg2 := reg1.clear_n_flag
    let reg3 := reg2.clear_h_flag
    let reg4 := if shifted_out_bit == 1 then reg3.set_c_flag else reg3.clear_c_flag
    let c := { c with reg := reg4 }
    match addressing_mode with
    | .ImmediateRegister r =>
      match r with
      | .A => some { c with reg := { c.reg with a := new_val } }
      | .B => some { c with reg := { c.reg with b := new_val } }
      | .C => some { c with reg := { c.reg with c := new_val } }
      | .D => some { c with reg := { c.reg with d := new_val } }
      | .E => some { c with reg := { c.reg with e := new_val } }
      | .H => some { c with reg := { c.reg with h := new_val } }
      | .L => some { c with reg := { c.reg with l := new_val } }
      | _ => none
    | .AddressRegister _ =>
      match c.get_data addressing_mode with
      | some (.Address addr) =>
        match c.memory.write_u8 addr new_val with
        | Option.none => none
        | some m => some { c with memory := m }
      | _ => none
    | _ => none

inductive StepResult where
  | ok (cycles : Nat)
  | err (e : CpuError)
deriving DecidableEq, Repr

/-- `execute_next_opcode`, embedded for the dispatch arms the claims
exercise: a missing table entry is the `UnrecognizedOpcode` error exactly as
in the source (reached before any dispatch), the rotate arms (unprefixed
0x07/0x0F/0x17/0x1F, prefixed 0x00-0x1F) and the interrupt toggles
0xF3/0xFB are embedded fully, and every other dispatch arm is `none`
("not embedded here"). PC advances by the descriptor's byte count with
16-bit wrap; none of the embedded arms sets `skip_pc_increase` or extra
cycles. -/
def Cpu.execute_next_opcode (c : Cpu) : Option (Cpu × StepResult) :=
  let code0 := c.memory.read_u8 c.pc
  let pfx := code0 == 0xCB
  let code := if pfx then c.memory.read_u8 ((c.pc + 1) % 0x10000) else code0
  match opcode_map_get (if pfx then prefixed_opcodes else normal_opcodes) code with
  | Option.none => some (c, .err (.UnrecognizedOpcode code pfx))
  | some op =>
    let step : Option Cpu :=
      if pfx then
        if code ≤ 0x07 then c.rotate op.lhs .Left true false
        else if code ≤ 0x0f then c.rotate op.lhs .Right true false
        else if code ≤ 0x17 then c.rotate op.lhs .Left true true
        else if code ≤ 0x1f then c.rotate op.lhs .Right true true
        else none
      else
        match code with
        | 0x07 => c.rotate op.lhs .Left false false
        | 0x0f => c.rotate op.lhs .Right false false
        | 0x17 => c.rotate op.lhs .Left false true
        | 0x1f => c.rotate op.lhs .Right false true
        | 0xf3 => some { c with ime := true }
        | 0xfb => some { c with ime := false }
        | _ => none
    match step with
    | Option.none => none
    | some c2 => some ({ c2 with pc := (c2.pc + op.bytes) % 0x10000 }, .ok op.t_cycles)

/-! ### CPU claim theorems -/

/-- A fresh bus with one byte stored (for concrete programs). -/
def busWithByte (addr v : Nat) : MemoryBus := (MemoryBus.new 0xFFFF).writeBlock addr v

def cpuDI : Cpu := ⟨Registers.new, 0xFFFE, 0, false, busWithByte 0 0xF3⟩

def cpuEI : Cpu := ⟨Registers.new, 0xFFFE, 0, true, busWithByte 0 0xFB⟩

/-- C1: the DI/EI handlers are swapped in the code: executing 0xF3 (DI)
sets the interrupt-master-enable flag and executing 0xFB (EI) clears it,
while registers, SP and memory are untouched and PC advances by 1. -/
theorem di_ei_swapped_eval :
    cpuDI.execute_next_opcode = some ({ cpuDI with ime := true, pc := 1 }, .ok 4) ∧
    cpuEI.execute_next_opcode = some ({ cpuEI with ime := false, pc := 1 }, .ok 4) :=
  ⟨rfl, rfl⟩

/-- The flag-update chain shared by every `rotate` call: Z from `zb`
(`update_z && result == 0`), N and H cleared, C from `cb`
(`shifted_out_bit == 1`). -/
def rotateFlags (r : Registers) (zb cb : Bool) : Registers :=
  let reg1 := if zb then r.set_z_flag else r.clear_z_flag
  let reg2 := reg1.clear_n_flag
  let reg3 := reg2.clear_h_flag
  if cb then reg3.set_c_flag else reg3.clear_c_flag

theorem rotateFlags_z (r : Registers) (zb cb : Bool) :
    (rotateFlags r zb cb).get_z_flag = if zb then 1 else 0 := by
  cases zb <;> cases cb <;>
    simp [rotateFlags, Registers.set_z_flag, Registers.clear_z_flag, Registers.clear_n_flag,
      Registers.clear_h_flag, Registers.set_c_flag, Registers.clear_c_flag,
      Registers.get_z_flag, getBit_eq_testBit, setBit, clearBit, notU8,
      Nat.testBit_or, Nat.testBit_and, Nat.testBit_xor, Nat.shiftLeft_eq,
      Nat.testBit_two_pow, show Nat.testBit 128 7 = true by decide, show Nat.testBit 127 7 = false by decide, show Nat.testBit 191 7 = true by decide, show Nat.testBit 223 7 = true by decide, show Nat.testBit 239 7 = true by decide, show Nat.testBit 16 7 = false by decide]

theorem rotateFlags_n (r : Registers) (zb cb : Bool) :
    (rotateFlags r zb cb).get_n_flag = 0 := by
  cases zb <;> cases cb <;>
    simp [rotateFlags, Registers.set_z_flag, Registers.clear_z_flag, Registers.clear_n_flag,
      Registers.clear_h_flag, Registers.set_c_flag, Registers.clear_c_flag,
      Registers.get_n_flag, getBit_eq_testBit, setBit, clearBit, notU8,
      Nat.testBit_or, Nat.testBit_and, Nat.testBit_xor, Nat.shiftLeft_eq,
      Nat.testBit_two_pow, show Nat.testBit 128 6 = false by decide, show Nat.testBit 127 6 = true by decide, show Nat.testBit 191 6 = false by decide, show Nat.testBit 223 6 = true by decide, show Nat.testBit 239 6 = true by decide, show Nat.testBit 16 6 = false by decide]

theorem rotateFlags_h (r : Registers) (zb cb : Bool) :
    (rotateFlags r zb cb).get_h_flag = 0 := by
  cases zb <;> cases cb <;>
    simp [rotateFlags, Registers.set_z_flag, Registers.clear_z_flag, Registers.clear_n_flag,
      Registers.clear_h_flag, Registers.set_c_flag, Registers.clear_c_flag,
      Registers.get_h_flag, getBit_eq_testBit, setBit, clearBit, notU8,
      Nat.testBit_or, Nat.testBit_and, Nat.testBit_xor, Nat.shiftLeft_eq,
      Nat.testBit_two_pow, show Nat.testBit 128 5 = false by decide, show Nat.testBit 127 5 = true by decide, show Nat.testBit 191 5 = true by decide, show Nat.testBit 223 5 = false by decide, show Nat.testBit 239 5 = true by decide, show Nat.testBit 16 5 = false by decide]

theorem rotateFlags_c (r : Registers) (zb cb : Bool) :
    (rotateFlags r zb cb).get_c_flag = if cb then 1 else 0 := by
  cases zb <;> cases cb <;>
    simp [rotateFlags, Registers.set_z_flag, Registers.clear_z_flag, Registers.clear_n_flag,
      Registers.clear_h_flag, Registers.set_c_flag, Registers.clear_c_flag,
      Registers.get_c_flag, getBit_eq_testBit, setBit, clearBit, notU8,
      Nat.testBit_or, Nat.testBit_and, Nat.testBit_xor, Nat.shiftLeft_eq,
      Nat.testBit_two_pow, show Nat.testBit 128 4 = false by decide, show Nat.testBit 127 4 = true by decide, show Nat.testBit 191 4 = true by decide, show Nat.testBit 223 4 = true by decide, show Nat.testBit 239 4 = false by decide, show Nat.testBit 16 4 = true by decide]

/-- `rotate` on the accumulator, left: the exact result state. -/
theorem rotate_A_left (c : Cpu) (uz tc : Bool) :
    c.rotate (.ImmediateRegister .A) .Left uz tc =
      some { c with reg :=
        { rotateFlags c.reg
            (uz && ((((c.reg.a <<< 1) % 256) |||
              (if tc then c.reg.get_c_flag else getBit c.reg.a 7)) == 0))
            (getBit c.reg.a 7 == 1) with
          a := ((c.reg.a <<< 1) % 256) |||
            (if tc then c.reg.get_c_flag else getBit c.reg.a 7) } } := by
  cases tc <;> rfl

/-- `rotate` on register C, left: the exact result state. -/
theorem rotate_C_left (c : Cpu) (uz tc : Bool) :
    c.rotate (.ImmediateRegister .C) .Left uz tc =
      some { c with reg :=
        { rotateFlags c.reg
            (uz && ((((c.reg.c <<< 1) % 256) |||
              (if tc then c.reg.get_c_flag else getBit c.reg.c 7)) == 0))
            (getBit c.reg.c 7 == 1) with
          c := ((c.reg.c <<< 1) % 256) |||
            (if tc then c.reg.get_c_flag else getBit c.reg.c 7) } } := by
  cases tc <;> rfl

def cpuC2 : Cpu := ⟨{ Registers.new with f := 0x80 }, 0, 0, false, busWithByte 0 0x17⟩

/-- C2 (counterexample): with Z initially set, executing the non-prefixed
rotate 0x17 (RLA) leaves Z cleared — the Z flag is not left unchanged. -/
theorem rla_clears_z_cex :
    cpuC2.reg.get_z_flag = 1 ∧
    (cpuC2.execute_next_opcode).map (fun r => r.1.reg.get_z_flag) = some 0 :=
  ⟨rfl, rfl⟩

/-- C2 (amended): of the four non-prefixed rotates only 0x17 (RLA) is in
the opcode table, and executing it always clears Z (and clears N and H,
sets C to bit 7 of A, writes the rotated byte to A, and leaves SP and
memory alone); 0x07/0x0F/0x1F fail with `UnrecognizedOpcode` without
touching the state. Of the prefixed 0x00-0x1F rotates only 0xCB 0x11
(RL C) is in the table, and it sets Z exactly when its 8-bit result is 0
(clearing N and H); every other prefixed code in 0x00-0x1F fails with
`UnrecognizedOpcode`. -/
theorem rotate_z_policy_amended (c : Cpu) :
    (c.memory.read_u8 c.pc = 0x17 →
      ∃ c2, c.execute_next_opcode = some (c2, .ok 4) ∧
        c2.reg.get_z_flag = 0 ∧ c2.reg.get_n_flag = 0 ∧ c2.reg.get_h_flag = 0 ∧
        c2.reg.get_c_flag = getBit c.reg.a 7 ∧
        c2.reg.a = ((c.reg.a <<< 1) % 256) ||| c.reg.get_c_flag ∧
        c2.sp = c.sp ∧ c2.memory = c.memory ∧ c2.pc = (c.pc + 1) % 0x10000) ∧
    (∀ code, (code = 0x07 ∨ code = 0x0f ∨ code = 0x1f) →
      c.memory.read_u8 c.pc = code →
      c.execute_next_opcode = some (c, .err (.UnrecognizedOpcode code false))) ∧
    (c.memory.read_u8 c.pc = 0xCB →
      (c.memory.read_u8 ((c.pc + 1) % 0x10000) = 0x11 →
        ∃ c2, c.execute_next_opcode = some (c2, .ok 8) ∧
          c2.reg.get_z_flag =
            (if ((c.reg.c <<< 1) % 256) ||| c.reg.get_c_flag = 0 then 1 else 0) ∧
          c2.reg.get_n_flag = 0 ∧ c2.reg.get_h_flag = 0 ∧
          c2.reg.c = ((c.reg.c <<< 1) % 256) ||| c.reg.get_c_flag) ∧
      (∀ sub, sub ≤ 0x1f → sub ≠ 0x11 →
        c.memory.read_u8 ((c.pc + 1) % 0x10000) = sub →
        c.execute_next_opcode = some (c, .err (.UnrecognizedOpcode sub true)))) := by
  refine ⟨fun h17 => ?_, fun code hc hread => ?_,
    fun hcb => ⟨fun h11 => ?_, fun sub hle hne hread => ?_⟩⟩
  · have hex : c.execute_next_opcode =
        some ({ c with
          reg := { rotateFlags c.reg false (getBit c.reg.a 7 == 1) with
            a := ((c.reg.a <<< 1) % 256) ||| c.reg.get_c_flag },
          pc := (c.pc + 1) % 0x10000 }, .ok 4) := by
      unfold Cpu.execute_next_opcode
      rw [h17]
      rfl
    refine ⟨_, hex, ?_, ?_, ?_, ?_, rfl, rfl, rfl, rfl⟩
    · simpa using rotateFlags_z c.reg false (getBit c.reg.a 7 == 1)
    · simpa using rotateFlags_n c.reg false (getBit c.reg.a 7 == 1)
    · simpa using rotateFlags_h c.reg false (getBit c.reg.a 7 == 1)
    · have h := rotateFlags_c c.reg false (getBit c.reg.a 7 == 1)
      have hle := getBit_le_one c.reg.a 7
      show (rotateFlags c.reg false (getBit c.reg.a 7 == 1)).get_c_flag = getBit c.reg.a 7
      rw [h]
      rcases Nat.le_one_iff_eq_zero_or_eq_one.mp hle with h0 | h0 <;> rw [h0] <;> rfl
  · rcases hc with rfl | rfl | rfl <;>
      · unfold Cpu.execute_next_opcode
        rw [hread]
        rfl
  · have hex : c.execute_next_opcode =
        some ({ c with
          reg := { rotateFlags c.reg
              ((((c.reg.c <<< 1) % 256) ||| c.reg.get_c_flag) == 0)
              (getBit c.reg.c 7 == 1) with
            c := ((c.reg.c <<< 1) % 256) ||| c.reg.get_c_flag },
          pc := (c.pc + 2) % 0x10000 }, .ok 8) := by
      unfold Cpu.execute_next_opcode
      rw [hcb, h11]
      rfl
    refine ⟨_, hex, ?_, ?_, ?_, rfl⟩
    · have h := rotateFlags_z c.reg
        ((((c.reg.c <<< 1) % 256) ||| c.reg.get_c_flag) == 0) (getBit c.reg.c 7 == 1)
      show (rotateFlags c.reg _ _).get_z_flag = _
      rw [h]
      by_cases h0 : ((c.reg.c <<< 1) % 256) ||| c.reg.get_c_flag = 0 <;> simp [h0]
    · simpa using rotateFlags_n c.reg _ _
    · simpa using rotateFlags_h c.reg _ _
  · interval_cases sub <;>
      first
        | omega
        | (unfold Cpu.execute_next_opcode; rw [hcb, hread]; rfl)

/-! ### C4: eight-fold RLCA -/

/-- One application of the operation opcode 0x07 dispatches to
(`rotate(lhs, Left, update_z: false, through_carry: false)` on A). -/
def rlcaStep (c : Cpu) : Option Cpu := c.rotate (.ImmediateRegister .A) .Left false false

def rolByte (a : Nat) : Nat := ((a <<< 1) % 256) ||| getBit a 7

def regRlca (r : Registers) : Registers :=
  { rotateFlags r false (getBit r.a 7 == 1) with a := rolByte r.a }

def optIter (f : Cpu → Option Cpu) : Nat → Cpu → Option Cpu
  | 0, c => some c
  | n + 1, c =>
    match f c with
    | Option.none => none
    | some c2 => optIter f n c2

theorem rlcaStep_eq (c : Cpu) : rlcaStep c = some { c with reg := regRlca c.reg } := by
  have h := rotate_A_left c false false
  simpa [rlcaStep, regRlca, rolByte] using h

theorem optIter_rlca (n : Nat) (c : Cpu) :
    optIter rlcaStep n c = some { c with reg := regRlca^[n] c.reg } := by
  induction n generalizing c with
  | zero => rfl
  | succ n ih =>
    rw [optIter, rlcaStep_eq]
    simp only [ih, Function.iterate_succ_apply]

theorem regRlca_iter_a : ∀ (n : Nat) (r : Registers),
    (regRlca^[n] r).a = rolByte^[n] r.a := by
  intro n
  induction n with
  | zero => intro r; rfl
  | succ n ih =>
    intro r
    rw [Function.iterate_succ_apply, Function.iterate_succ_apply]
    exact ih (regRlca r)

theorem regRlca_c (s : Registers) : (regRlca s).get_c_flag = getBit s.a 7 := by
  show (rotateFlags s false (getBit s.a 7 == 1)).get_c_flag = getBit s.a 7
  rw [rotateFlags_c]
  rcases Nat.le_one_iff_eq_zero_or_eq_one.mp (getBit_le_one s.a 7) with h0 | h0 <;>
    rw [h0] <;> rfl

theorem rolByte_eight : ∀ a < 256, rolByte^[8] a = a := by decide

theorem rolByte_seven_bit : ∀ a < 256, getBit (rolByte^[7] a) 7 = getBit a 0 := by decide

/-- C4 (amended): eight applications of the code's RLCA operation return A
to its original byte, but the final Carry flag is bit 0 of the original A,
not the original Carry value; and opcode 0x07 is absent from the
unprefixed opcode table, so executing it fails with `UnrecognizedOpcode`
before the rotate is ever reached. -/
theorem rlca_eight_amended (c : Cpu) (ha : c.reg.a < 256) :
    (∃ c8, optIter rlcaStep 8 c = some c8 ∧ c8.reg.a = c.reg.a ∧
      c8.reg.get_c_flag = getBit c.reg.a 0) ∧
    opcode_map_get normal_opcodes 0x07 = Option.none := by
  refine ⟨⟨_, optIter_rlca 8 c, ?_, ?_⟩, rfl⟩
  · rw [regRlca_iter_a]
    exact rolByte_eight c.reg.a ha
  · show (regRlca^[8] c.reg).get_c_flag = getBit c.reg.a 0
    rw [show (8 : Nat) = 7 + 1 from rfl, Function.iterate_succ_apply', regRlca_c,
      regRlca_iter_a]
    exact rolByte_seven_bit c.reg.a ha

def cpuW4 : Cpu := ⟨{ Registers.new with a := 0xA5 }, 0, 0, false, MemoryBus.new 0xFFFF⟩

/-- C4 (witness): the amended statement at A = 0xA5. -/
theorem rlca_eight_witness :
    (∃ c8, optIter rlcaStep 8 cpuW4 = some c8 ∧ c8.reg.a = cpuW4.reg.a ∧
      c8.reg.get_c_flag = getBit cpuW4.reg.a 0) ∧
    opcode_map_get normal_opcodes 0x07 = Option.none :=
  rlca_eight_amended cpuW4 (by decide)

def cpuC4 : Cpu := ⟨{ Registers.new with f := 0x10 }, 0, 0, false, busWithByte 0 0x07⟩

/-- C4 (counterexample): from A = 0, Carry = 1, eight RLCA operations
return A = 0 but Carry = 0 — the original Carry is not restored; and
executing opcode 0x07 through the fetch loop is an `UnrecognizedOpcode`
error. -/
theorem rlca_eight_carry_cex :
    cpuC4.reg.get_c_flag = 1 ∧
    (optIter rlcaStep 8 cpuC4).map (fun c8 => (c8.reg.a, c8.reg.get_c_flag)) =
      some (0, 0) ∧
    cpuC4.execute_next_opcode = some (cpuC4, .err (.UnrecognizedOpcode 0x07 false)) :=
  ⟨rfl, rfl, rfl⟩

/-! ### C3: stack round trip -/

/-- Splitting a 16-bit value into `(v &&& 0xFF00) >>> 8` and `v &&& 0xFF`
and recombining loses nothing. -/
theorem u16_split_recombine (v : Nat) (hv : v < 0x10000) :
    ((((v &&& 0xFF00) >>> 8) <<< 8) ||| (v &&& 0xFF)) = v := by
  apply Nat.eq_of_testBit_eq
  intro i
  simp only [Nat.testBit_or, Nat.testBit_shiftLeft, Nat.testBit_shiftRight, Nat.testBit_and]
  by_cases h8 : i < 8
  · have hge : ¬(i ≥ 8) := by omega
    have hff : (0xFF : Nat).testBit i = true := by interval_cases i <;> decide
    simp [hge, hff]
  · by_cases h16 : i < 16
    · have hge : i ≥ 8 := by omega
      have hi : 8 + (i - 8) = i := by omega
      have hff00 : (0xFF00 : Nat).testBit i = true := by interval_cases i <;> decide
      have hff : (0xFF : Nat).testBit i = false := by interval_cases i <;> decide
      simp [hge, hi, hff00, hff]
    · have hvi : v.testBit i = false := by
        apply Nat.testBit_lt_two_pow
        calc v < 0x10000 := hv
          _ = 2 ^ 16 := by norm_num
          _ ≤ 2 ^ i := Nat.pow_le_pow_right (by norm_num) (by omega)
      have hff : (0xFF : Nat).testBit i = false := by
        apply Nat.testBit_lt_two_pow
        calc (0xFF : Nat) < 2 ^ 16 := by norm_num
          _ ≤ 2 ^ i := Nat.pow_le_pow_right (by norm_num) (by omega)
      have hge : i ≥ 8 := by omega
      have hff00 : (0xFF00 : Nat).testBit i = false := by
        apply Nat.testBit_lt_two_pow
        calc (0xFF00 : Nat) < 2 ^ 16 := by norm_num
          _ ≤ 2 ^ i := Nat.pow_le_pow_right (by norm_num) (by omega)
      simp [hge, hvi, hff, hff00, show 8 + (i - 8) = i by omega]

/-- C3 (amended): when the two stack bytes land on plain storage — neither
`sp-1` nor `sp-2` (mod 2^16) is in the ROM-bank-select range
0x2000-0x3FFF nor equals the DIV register 0xFF04 or the boot-ROM-disable
register 0xFF50 — `push_stack(v)` stores the high byte at sp-1 and the low
byte at sp-2 with SP decremented by 2, and a following `pop_stack()`
returns v (for v in 0..0xFFFF) and restores SP. -/
theorem stack_roundtrip_amended (c : Cpu) (v : Nat) (hsp : c.sp < 0x10000)
    (h1 : ¬(0x2000 ≤ (c.sp + 0xFFFF) % 0x10000 ∧ (c.sp + 0xFFFF) % 0x10000 ≤ 0x3FFF))
    (h2 : (c.sp + 0xFFFF) % 0x10000 ≠ 0xFF04)
    (h3 : (c.sp + 0xFFFF) % 0x10000 ≠ 0xFF50)
    (h4 : ¬(0x2000 ≤ ((c.sp + 0xFFFF) % 0x10000 + 0xFFFF) % 0x10000 ∧
        ((c.sp + 0xFFFF) % 0x10000 + 0xFFFF) % 0x10000 ≤ 0x3FFF))
    (h5 : ((c.sp + 0xFFFF) % 0x10000 + 0xFFFF) % 0x10000 ≠ 0xFF04)
    (h6 : ((c.sp + 0xFFFF) % 0x10000 + 0xFFFF) % 0x10000 ≠ 0xFF50) :
    ∃ c2, c.push_stack v = some c2 ∧
      c2.sp = ((c.sp + 0xFFFF) % 0x10000 + 0xFFFF) % 0x10000 ∧
      c2.reg = c.reg ∧ c2.pc = c.pc ∧
      c2.memory.read_u8 ((c.sp + 0xFFFF) % 0x10000) = (v &&& 0xFF00) >>> 8 ∧
      c2.memory.read_u8 c2.sp = v &&& 0xFF ∧
      (v < 0x10000 → c2.pop_stack.2 = v) ∧
      c2.pop_stack.1.sp = c.sp := by
  have hne1 : (c.sp + 0xFFFF) % 0x10000 ≠
      ((c.sp + 0xFFFF) % 0x10000 + 0xFFFF) % 0x10000 := by omega
  have e1 : (((c.sp + 0xFFFF) % 0x10000 + 0xFFFF) % 0x10000 + 1) % 0x10000 =
      (c.sp + 0xFFFF) % 0x10000 := by omega
  have hpush : c.push_stack v =
      some { c with
        sp := ((c.sp + 0xFFFF) % 0x10000 + 0xFFFF) % 0x10000,
        memory := (c.memory.writeBlock ((c.sp + 0xFFFF) % 0x10000) ((v &&& 0xFF00) >>> 8)).writeBlock
          (((c.sp + 0xFFFF) % 0x10000 + 0xFFFF) % 0x10000) (v &&& 0xFF) } := by
    unfold Cpu.push_stack
    dsimp only
    rw [write_u8_plain _ _ _ h1 h2 h3]
    dsimp only
    rw [write_u8_plain _ _ _ h4 h5 h6]
  refine ⟨_, hpush, rfl, rfl, rfl, ?_, ?_, ?_, ?_⟩
  · rw [read_after_write_other _ _ _ _ hne1]
    exact read_after_write_same _ _ _
  · exact read_after_write_same _ _ _
  · intro hv
    unfold Cpu.pop_stack
    dsimp only
    rw [e1, read_after_write_same, read_after_write_other _ _ _ _ hne1,
      read_after_write_same]
    exact u16_split_recombine v hv
  · unfold Cpu.pop_stack
    dsimp only
    omega

def cpuW3 : Cpu := ⟨Registers.new, 0xC002, 0, false, MemoryBus.new 0xFFFF⟩

/-- C3 (witness): the amended statement at SP = 0xC002, v = 0xABCD. -/
theorem stack_roundtrip_witness :
    ∃ c2, cpuW3.push_stack 0xABCD = some c2 ∧
      c2.sp = ((cpuW3.sp + 0xFFFF) % 0x10000 + 0xFFFF) % 0x10000 ∧
      c2.reg = cpuW3.reg ∧ c2.pc = cpuW3.pc ∧
      c2.memory.read_u8 ((cpuW3.sp + 0xFFFF) % 0x10000) = (0xABCD &&& 0xFF00) >>> 8 ∧
      c2.memory.read_u8 c2.sp = 0xABCD &&& 0xFF ∧
      ((0xABCD : Nat) < 0x10000 → c2.pop_stack.2 = 0xABCD) ∧
      c2.pop_stack.1.sp = cpuW3.sp :=
  stack_roundtrip_amended cpuW3 0xABCD (by decide) (by decide) (by decide) (by decide)
    (by decide) (by decide) (by decide)

def cpuC3 : Cpu := ⟨Registers.new, 0xFF06, 0, false, MemoryBus.new 0xFFFF⟩

/-- C3 (counterexample): with SP = 0xFF06 the low byte lands on the DIV
register 0xFF04, which stores 0 regardless of the written value, so
pushing 1 and popping returns 0 (SP itself is restored). -/
theorem stack_roundtrip_cex :
    (cpuC3.push_stack 1).map (fun c2 => (c2.pop_stack.2, c2.pop_stack.1.sp)) =
      some (0, 0xFF06) ∧ (0 : Nat) ≠ 1 :=
  ⟨rfl, by decide⟩

/-! ## Pixel pipeline (src/emulator/ppu.rs)

The PPU talks to memory through the `Bus` trait; the trait's
implementation (`DMGBus`) is not among the repository's source files.
Modelled from the spec: the bus behind the PPU is plain byte storage —
per spec §4.1/§6 the only write side effects live at 0x2000-0x3FFF,
0xFF04 and 0xFF50, none of which the PPU touches — so a bus state is a
byte map `Nat → Nat` and a write is a point update. The PPU's panics
(`Fifo::push` on a full queue, `Fifo::pop` on an empty one, `set_pixel`
out of range, the unreachable pixel-color fallback) become
`Except PpuPanic` errors. -/

def BusState : Type := Nat → Nat

/-- LCD register addresses (src/emulator/mod.rs, `LCDRegister`). -/
def LCDC : Nat := 0xFF40

def SCY : Nat := 0xFF42

def SCX : Nat := 0xFF43

def LY : Nat := 0xFF44

def SCREEN_WIDTH : Nat := 160

def SCREEN_HEIGHT : Nat := 144

def CYCLES_PER_SCANLINE : Nat := 456

inductive PpuMode where
  | HBlank
  | VBlank
  | OAMScan
  | DrawingPixels
deriving DecidableEq, Repr

inductive FetcherMode where
  | GetTile
  | TileDataLow
  | TileDataHigh
  | Sleep
  | Push
deriving DecidableEq, Repr

inductive PpuPanic where
  | fifoOverflow
  | fifoEmpty
  | pixelOutOfRange
  | badColor
deriving DecidableEq, Repr

/-- The pixel FIFO: a `VecDeque` pushed at the front and popped at the
back, capped at `max_size` (16). -/
structure Fifo where
  pixels : List Nat
  max_size : Nat

def Fifo.new : Fifo := ⟨[], 16⟩

def Fifo.push (f : Fifo) (pixel : Nat) : Except PpuPanic Fifo :=
  if f.pixels.length < f.max_size then .ok { f with pixels := pixel :: f.pixels }
  else .error .fifoOverflow

def Fifo.pop (f : Fifo) : Except PpuPanic (Fifo × Nat) :=
  match f.pixels.getLast? with
  | Option.none => .error .fifoEmpty
  | some px => .ok ({ f with pixels := f.pixels.dropLast }, px)

def Fifo.len (f : Fifo) : Nat := f.pixels.length

def Fifo.clear (f : Fifo) : Fifo := { f with pixels := [] }

def Palette : Type := Nat × Nat × Nat × Nat

structure Ppu where
  frame : Nat → Nat
  mode : PpuMode
  current_scanline_cycles : Nat
  fetcher_mode : FetcherMode
  fetcher_x : Nat
  scanline_x : Nat
  tile_number : Nat
  tile_addr : Nat
  lo_byte : Nat
  hi_byte : Nat
  background_fifo : Fifo
  object_fifo : Fifo
  palette : Palette
  pixels_to_discard : Nat

/-- `Ppu::new` (the constructor's `LY := 0` bus write is a caller-side
effect in this per-call bus model; the frame buffer starts blank). -/
def Ppu.new (palette : Palette) : Ppu :=
  ⟨fun _ => 0, .OAMScan, 0, .GetTile, 0, 0, 0, 0, 0, 0, Fifo.new, Fifo.new, palette, 0⟩

def Ppu.set_pixel (p : Ppu) (x y color : Nat) : Except PpuPanic Ppu :=
  if x > SCREEN_WIDTH then .error .pixelOutOfRange
  else if y > SCREEN_HEIGHT then .error .pixelOutOfRange
  else .ok { p with frame := Function.update p.frame (y * SCREEN_WIDTH + x) color }

def Ppu.get_tile_number (p : Ppu) (bus : BusState) : Nat :=
  let lcdc := bus LCDC
  let ly := bus LY
  let scy := bus SCY
  let tile_map_base := (lcdc >>> 3) &&& 1
  let tile_num_addr := 0x9800 ||| (tile_map_base <<< 10) |||
    ((((ly + scy) &&& 0xFF) >>> 3) <<< 5) ||| (p.fetcher_x &&& 0x1F)
  bus tile_num_addr

/-- The address `get_tile_data_low` stores into `tile_addr` before
reading it. -/
def Ppu.tile_data_addr (p : Ppu) (bus : BusState) : Nat :=
  let lcdc := bus LCDC
  let ly := bus LY
  let scy := bus SCY
  let bit_12 : Nat := if ¬((lcdc &&& 0x10) > 0 ∨ (p.tile_number &&& 0x80) > 0) then 1 else 0
  0x8000 ||| (bit_12 <<< 12) ||| (p.tile_number <<< 4) ||| (((ly + scy) % 8) <<< 1)

/-- The 2-bit color index assembled from the two plane bytes at `bit`. -/
def pixBits (lo hi bit : Nat) : Nat := (getBit hi bit <<< 1) ||| getBit lo bit

def pixColor (pal : Palette) (data : Nat) : Except PpuPanic Nat :=
  match data with
  | 0 => .ok pal.1
  | 1 => .ok pal.2.1
  | 2 => .ok pal.2.2.1
  | 3 => .ok pal.2.2.2
  | _ => .error .badColor

/-- The `for bit in (0..8).rev()` loop of `push_to_fifo`. -/
def pushPixelList (f : Fifo) (pal : Palette) (lo hi : Nat) : List Nat → Except PpuPanic Fifo
  | [] => .ok f
  | bit :: rest =>
    match pixColor pal (pixBits lo hi bit) with
    | .error e => .error e
    | .ok color =>
      match f.push color with
      | .error e => .error e
      | .ok f2 => pushPixelList f2 pal lo hi rest

def Ppu.push_to_fifo (p : Ppu) : Except PpuPanic Ppu :=
  match pushPixelList p.background_fifo p.palette p.lo_byte p.hi_byte
      [7, 6, 5, 4, 3, 2, 1, 0] with
  | .error e => .error e
  | .ok f =>
    .ok { p with
          background_fifo := f,
          fetcher_x := if p.fetcher_x + 1 ≥ 32 then 0 else p.fetcher_x + 1 }

/-- The fetcher sub-state advance performed on every second cycle of
`DrawingPixels`. -/
def fetcherAdvance (p : Ppu) (bus : BusState) : Except PpuPanic Ppu :=
  match p.fetcher_mode with
  | .GetTile =>
    .ok { p with tile_number := p.get_tile_number bus, fetcher_mode := .TileDataLow }
  | .TileDataLow =>
    let ta := p.tile_data_addr bus
    .ok { p with tile_addr := ta, lo_byte := bus ta, fetcher_mode := .TileDataHigh }
  | .TileDataHigh =>
    .ok { p with hi_byte := bus (p.tile_addr + 1), fetcher_mode := .Push }
  | .Push =>
    match p.push_to_fifo with
    | .error e => .error e
    | .ok p2 => .ok { p2 with fetcher_mode := .GetTile }
  | .Sleep => .ok p

/-- The per-cycle pop/discard/draw block of `DrawingPixels`. -/
def drawPop (p : Ppu) (bus : BusState) : Except PpuPanic Ppu :=
  if p.background_fifo.len > 0 then
    match p.background_fifo.pop with
    | .error e => .error e
    | .ok fc =>
      let p := { p with background_fifo := fc.1 }
      if p.pixels_to_discard > 0 then
        .ok { p with pixels_to_discard := p.pixels_to_discard - 1 }
      else
        let ly := bus LY
        match p.set_pixel p.scanline_x ly fc.2 with
        | .error e => .error e
        | .ok p2 => .ok { p2 with scanline_x := p2.scanline_x + 1 }
  else .ok p

/-- One iteration of the `for i in 0..cycles` loop of `update_graphics`;
`odd` is `i % 2 == 1`. -/
def ppuStep (st : Ppu × BusState) (odd : Bool) : Except PpuPanic (Ppu × BusState) :=
  let bus := st.2
  let p := { st.1 with current_scanline_cycles := st.1.current_scanline_cycles + 1 }
  match p.mode with
  | .OAMScan =>
    if p.current_scanline_cycles ≥ 80 then
      let scx := bus SCX
      .ok ({ p with
             fetcher_x := scx >>> 3, pixels_to_discard := scx &&& 7,
             background_fifo := p.background_fifo.clear, fetcher_mode := .GetTile,
             mode := .DrawingPixels }, bus)
    else .ok (p, bus)
  | .DrawingPixels =>
    match (if odd then fetcherAdvance p bus else .ok p) with
    | .error e => .error e
    | .ok p1 =>
      match drawPop p1 bus with
      | .error e => .error e
      | .ok p2 =>
        .ok ((if p2.scanline_x ≥ 160 then { p2 with mode := PpuMode.HBlank } else p2), bus)
  | .HBlank =>
    if p.current_scanline_cycles ≥ CYCLES_PER_SCANLINE then
      let scx := bus SCX
      let ly := (bus LY + 1) % 256
      let bus2 := Function.update bus LY ly
      .ok ({ p with
             scanline_x := 0, fetcher_x := scx >>> 3,
             pixels_to_discard := scx &&& 7,
             background_fifo := p.background_fifo.clear, fetcher_mode := .GetTile,
             current_scanline_cycles := 0,
             mode := if ly ≥ 144 then PpuMode.VBlank else PpuMode.OAMScan }, bus2)
    else .ok (p, bus)
  | .VBlank =>
    if p.current_scanline_cycles ≥ CYCLES_PER_SCANLINE then
      let ly := (bus LY + 1) % 256
      let bus2 := Function.update bus LY ly
      if ly ≥ 153 then
        .ok ({ p with current_scanline_cycles := 0, mode := PpuMode.OAMScan },
          Function.update bus2 LY 0)
      else
        .ok ({ p with current_scanline_cycles := 0 }, bus2)
    else .ok (p, bus)

def ppuIter : (Ppu × BusState) → Nat → Nat → Except PpuPanic (Ppu × BusState)
  | st, _, 0 => .ok st
  | st, i, n + 1 =>
    match ppuStep st (i % 2 == 1) with
    | .error e => .error e
    | .ok st2 => ppuIter st2 (i + 1) n

def Ppu.update_graphics (st : Ppu × BusState) (cycles : Nat) :
    Except PpuPanic (Ppu × BusState) :=
  if getBit (st.2 LCDC) 7 = 0 then .ok st
  else ppuIter st 0 cycles

/-- A sequence of `update_graphics` calls, each with its own cycle count
and ambient bus contents (between calls the CPU may rewrite the bus
arbitrarily, so each call takes a fresh bus). -/
def runCalls (p : Ppu) : List (Nat × BusState) → Except PpuPanic Ppu
  | [] => .ok p
  | (cycles, bus) :: rest =>
    match Ppu.update_graphics (p, bus) cycles with
    | .error e => .error e
    | .ok st => runCalls st.1 rest

/-! ### C5: VBlank off-by-one -/

def ppuC5 : Ppu :=
  { Ppu.new (0xFFFFFF, 0xa9a9a9, 0x545454, 0x000000) with
    mode := .VBlank, current_scanline_cycles := 455 }

def busC5 : BusState := fun a => if a = LY then 152 else if a = LCDC then 0x80 else 0

/-- C5: with LY = 152 in VBlank, completing the scanline resets LY to 0
and returns to OAMScan immediately — the code's VBlank arm resets when the
incremented LY reaches 153, so VBlank spans LY 144-152 (9 scanlines), not
the claimed 10 scanlines with reset at 154. -/
theorem vblank_reset_at_153_eval :
    (Ppu.update_graphics (ppuC5, busC5) 1).map (fun st => (st.1.mode, st.2 LY)) =
      .ok (PpuMode.OAMScan, 0) := by
  rfl

/-! ### C10: the background FIFO never overflows

The fetcher advances only on odd loop indices, so two advances are never
adjacent; four advances separate consecutive `Push` steps, while every
`DrawingPixels` cycle with a non-empty FIFO pops one pixel.  The invariant
bounds the FIFO length by how far the fetcher still is from its next
`Push` (`advNeeded`), relative to whether the previous iteration was an
odd one (`prev`); outside `DrawingPixels` the FIFO holds at most the 15
pixels it can have when a scanline ends. -/

def advNeeded : FetcherMode → Nat
  | .Push => 1
  | .TileDataHigh => 2
  | .TileDataLow => 3
  | .GetTile => 4
  | .Sleep => 4

def prevSub : Bool → Nat
  | true => 1
  | false => 2

def lenBound (p : Ppu) (prev : Bool) : Nat :=
  match p.mode with
  | .DrawingPixels => 8 + 2 * advNeeded p.fetcher_mode - prevSub prev
  | _ => 15

def Inv (p : Ppu) (prev : Bool) : Prop :=
  p.background_fifo.max_size = 16 ∧ p.background_fifo.pixels.length ≤ lenBound p prev

theorem advNeeded_bounds (f : FetcherMode) : 1 ≤ advNeeded f ∧ advNeeded f ≤ 4 := by
  cases f <;> simp [advNeeded]

theorem pixBits_le (lo hi bit : Nat) : pixBits lo hi bit ≤ 3 := by
  unfold pixBits
  rcases Nat.le_one_iff_eq_zero_or_eq_one.mp (getBit_le_one hi bit) with h1 | h1 <;>
    rcases Nat.le_one_iff_eq_zero_or_eq_one.mp (getBit_le_one lo bit) with h2 | h2 <;>
      rw [h1, h2] <;> decide

theorem pixColor_ok (pal : Palette) (d : Nat) (hd : d ≤ 3) :
    ∃ col, pixColor pal d = .ok col := by
  interval_cases d <;> exact ⟨_, rfl⟩

theorem fifoPush_ok (f : Fifo) (x : Nat) (h : f.pixels.length < f.max_size) :
    f.push x = .ok { f with pixels := x :: f.pixels } := by
  unfold Fifo.push
  rw [if_pos h]

theorem pushPixelList_ok (pal : Palette) (lo hi : Nat) :
    ∀ (bits : List Nat) (f : Fifo), f.pixels.length + bits.length ≤ f.max_size →
      ∃ f2, pushPixelList f pal lo hi bits = .ok f2 ∧
        f2.pixels.length = f.pixels.length + bits.length ∧
        f2.max_size = f.max_size := by
  intro bits
  induction bits with
  | nil =>
    intro f h
    exact ⟨f, rfl, by simp, rfl⟩
  | cons bit rest ih =>
    intro f h
    obtain ⟨col, hcol⟩ := pixColor_ok pal (pixBits lo hi bit) (pixBits_le lo hi bit)
    have hlt : f.pixels.length < f.max_size := by
      simp only [List.length_cons] at h
      omega
    have hpush := fifoPush_ok f col hlt
    obtain ⟨f2, hf2, hlen2, hmax2⟩ :=
      ih { f with pixels := col :: f.pixels } (by simp only [List.length_cons] at h ⊢; omega)
    refine ⟨f2, ?_, ?_, hmax2⟩
    · unfold pushPixelList
      rw [hcol]
      dsimp only
      rw [hpush]
      dsimp only
      exact hf2
    · simp only [List.length_cons] at hlen2 ⊢
      omega

theorem push_to_fifo_ok (p : Ppu) (h16 : p.background_fifo.max_size = 16)
    (hlen : p.background_fifo.pixels.length ≤ 8) :
    ∃ p2, p.push_to_fifo = .ok p2 ∧
      p2.background_fifo.pixels.length = p.background_fifo.pixels.length + 8 ∧
      p2.background_fifo.max_size = 16 ∧
      p2.mode = p.mode ∧ p2.fetcher_mode = p.fetcher_mode := by
  obtain ⟨f2, hf2, hlen2, hmax2⟩ :=
    pushPixelList_ok p.palette p.lo_byte p.hi_byte [7, 6, 5, 4, 3, 2, 1, 0]
      p.background_fifo (by simp only [List.length_cons, List.length_nil]; omega)
  have hmain : p.push_to_fifo = .ok { p with
      background_fifo := f2,
      fetcher_x := if p.fetcher_x + 1 ≥ 32 then 0 else p.fetcher_x + 1 } := by
    unfold Ppu.push_to_fifo
    rw [hf2]
  refine ⟨_, hmain, ?_, ?_, rfl, rfl⟩
  · simp only [List.length_cons, List.length_nil] at hlen2
    simpa using hlen2
  · rw [hmax2, h16]

theorem drawPop_spec (p : Ppu) (bus : BusState) :
    match drawPop p bus with
    | .error e => e ≠ .fifoOverflow
    | .ok q =>
      q.background_fifo.pixels.length = p.background_fifo.pixels.length - 1 ∧
      q.background_fifo.max_size = p.background_fifo.max_size ∧
      q.mode = p.mode ∧ q.fetcher_mode = p.fetcher_mode := by
  unfold drawPop Fifo.pop Ppu.set_pixel
  by_cases hl : p.background_fifo.len > 0
  · rw [if_pos hl]
    cases hg : p.background_fifo.pixels.getLast? with
    | none =>
      dsimp only
      simp
    | some px =>
      dsimp only
      by_cases hdis : p.pixels_to_discard > 0
      · rw [if_pos hdis]
        simp [List.length_dropLast]
      · rw [if_neg hdis]
        by_cases hx : p.scanline_x > SCREEN_WIDTH
        · rw [if_pos hx]
          dsimp only
          simp
        · rw [if_neg hx]
          by_cases hy : bus LY > SCREEN_HEIGHT
          · rw [if_pos hy]
            dsimp only
            simp
          · rw [if_neg hy]
            dsimp only
            simp [List.length_dropLast]
  · rw [if_neg hl]
    dsimp only
    refine ⟨?_, rfl, rfl, rfl⟩
    unfold Fifo.len at hl
    omega

theorem fetcherAdvance_ok (p : Ppu) (bus : BusState)
    (h16 : p.background_fifo.max_size = 16)
    (hlen : p.background_fifo.pixels.length ≤ 8 + 2 * advNeeded p.fetcher_mode - 2) :
    ∃ q, fetcherAdvance p bus = .ok q ∧
      q.background_fifo.max_size = 16 ∧
      q.background_fifo.pixels.length ≤ 8 + 2 * advNeeded q.fetcher_mode ∧
      q.mode = p.mode := by
  cases hf : p.fetcher_mode with
  | GetTile =>
    have hadv : fetcherAdvance p bus =
        .ok { p with tile_number := p.get_tile_number bus,
                     fetcher_mode := .TileDataLow } := by
      unfold fetcherAdvance
      rw [hf]
    refine ⟨_, hadv, h16, ?_, rfl⟩
    rw [hf] at hlen
    simp only [advNeeded] at hlen
    dsimp only
    simp only [advNeeded]
    omega
  | TileDataLow =>
    have hadv : fetcherAdvance p bus =
        .ok { p with tile_addr := p.tile_data_addr bus,
                     lo_byte := bus (p.tile_data_addr bus),
                     fetcher_mode := .TileDataHigh } := by
      unfold fetcherAdvance
      rw [hf]
    refine ⟨_, hadv, h16, ?_, rfl⟩
    rw [hf] at hlen
    simp only [advNeeded] at hlen
    dsimp only
    simp only [advNeeded]
    omega
  | TileDataHigh =>
    have hadv : fetcherAdvance p bus =
        .ok { p with hi_byte := bus (p.tile_addr + 1), fetcher_mode := .Push } := by
      unfold fetcherAdvance
      rw [hf]
    refine ⟨_, hadv, h16, ?_, rfl⟩
    rw [hf] at hlen
    simp only [advNeeded] at hlen
    dsimp only
    simp only [advNeeded]
    omega
  | Sleep =>
    have hadv : fetcherAdvance p bus = .ok p := by
      unfold fetcherAdvance
      rw [hf]
    refine ⟨_, hadv, h16, ?_, rfl⟩
    rw [hf] at hlen
    simp only [advNeeded] at hlen
    rw [hf]
    simp only [advNeeded]
    omega
  | Push =>
    rw [hf] at hlen
    simp only [advNeeded] at hlen
    obtain ⟨p2, hp2, hlen2, hmax2, hmode2, hfm2⟩ := push_to_fifo_ok p h16 (by omega)
    have hadv : fetcherAdvance p bus = .ok { p2 with fetcher_mode := .GetTile } := by
      unfold fetcherAdvance
      rw [hf, hp2]
    refine ⟨_, hadv, hmax2, ?_, by simpa using hmode2⟩
    dsimp only
    simp only [advNeeded]
    rw [hlen2]
    omega

theorem ppuStep_drawing (p : Ppu) (bus : BusState) (b prev : Bool)
    (hmode : p.mode = .DrawingPixels)
    (h16 : p.background_fifo.max_size = 16)
    (hlen : p.background_fifo.pixels.length ≤
      8 + 2 * advNeeded p.fetcher_mode - prevSub prev) :
    (prev && b) = false →
    match ppuStep (p, bus) b with
    | .error e => e ≠ .fifoOverflow
    | .ok st2 => Inv st2.1 b := by
  intro hadj
  have hk := advNeeded_bounds p.fetcher_mode
  unfold ppuStep
  dsimp only
  rw [hmode]
  dsimp only
  cases b with
  | true =>
    have hprev : prev = false := by cases prev <;> simp_all
    rw [hprev] at hlen
    simp only [prevSub] at hlen
    rw [if_pos rfl]
    obtain ⟨q, hq, hq16, hqlen, hqmode⟩ :=
      fetcherAdvance_ok { p with mode := PpuMode.DrawingPixels, current_scanline_cycles := p.current_scanline_cycles + 1 } bus h16 (by simpa using hlen)
    rw [hq]
    dsimp only
    have hkq := advNeeded_bounds q.fetcher_mode
    have hd := drawPop_spec q bus
    cases hdp : drawPop q bus with
    | error e =>
      rw [hdp] at hd
      exact hd
    | ok q2 =>
      rw [hdp] at hd
      obtain ⟨hlen2, hmax2, hmode2, hfm2⟩ := hd
      dsimp only
      by_cases hs : q2.scanline_x ≥ 160
      · rw [if_pos hs]
        refine ⟨by rw [hmax2, hq16], ?_⟩
        dsimp only [lenBound]
        omega
      · rw [if_neg hs]
        have hq2mode : q2.mode = PpuMode.DrawingPixels := by
          rw [hmode2, hqmode]
        refine ⟨by rw [hmax2, hq16], ?_⟩
        unfold lenBound
        rw [hq2mode]
        dsimp only
        rw [hfm2]
        simp only [prevSub]
        omega
  | false =>
    rw [if_neg (by decide)]
    dsimp only
    have hlen1 : p.background_fifo.pixels.length ≤ 8 + 2 * advNeeded p.fetcher_mode - 1 := by
      cases prev <;> simp only [prevSub] at hlen <;> omega
    have hd := drawPop_spec { p with mode := PpuMode.DrawingPixels, current_scanline_cycles := p.current_scanline_cycles + 1 } bus
    cases hdp : drawPop { p with mode := PpuMode.DrawingPixels, current_scanline_cycles := p.current_scanline_cycles + 1 } bus with
    | error e =>
      rw [hdp] at hd
      exact hd
    | ok q2 =>
      rw [hdp] at hd
      obtain ⟨hlen2, hmax2, hmode2, hfm2⟩ := hd
      dsimp only at hlen2 hmax2 hmode2 hfm2
      dsimp only
      by_cases hs : q2.scanline_x ≥ 160
      · rw [if_pos hs]
        refine ⟨by rw [hmax2]; exact h16, ?_⟩
        dsimp only [lenBound]
        omega
      · rw [if_neg hs]
        refine ⟨by rw [hmax2]; exact h16, ?_⟩
        unfold lenBound
        rw [hmode2]
        dsimp only
        rw [hfm2]
        simp only [prevSub]
        omega

theorem ppuStep_other (p : Ppu) (bus : BusState) (b : Bool)
    (hmode : p.mode ≠ .DrawingPixels)
    (h16 : p.background_fifo.max_size = 16)
    (hlen : p.background_fifo.pixels.length ≤ 15) :
    match ppuStep (p, bus) b with
    | .error e => e ≠ .fifoOverflow
    | .ok st2 => Inv st2.1 b := by
  unfold ppuStep
  dsimp only
  cases hm : p.mode with
  | DrawingPixels => exact absurd hm hmode
  | OAMScan =>
    dsimp only
    by_cases hc : p.current_scanline_cycles + 1 ≥ 80
    · rw [if_pos hc]
      exact ⟨h16, Nat.zero_le _⟩
    · rw [if_neg hc]
      refine ⟨h16, ?_⟩
      unfold lenBound
      dsimp only
      exact hlen
  | HBlank =>
    dsimp only
    by_cases hc : p.current_scanline_cycles + 1 ≥ CYCLES_PER_SCANLINE
    · rw [if_pos hc]
      exact ⟨h16, Nat.zero_le _⟩
    · rw [if_neg hc]
      refine ⟨h16, ?_⟩
      unfold lenBound
      dsimp only
      exact hlen
  | VBlank =>
    dsimp only
    by_cases hc : p.current_scanline_cycles + 1 ≥ CYCLES_PER_SCANLINE
    · rw [if_pos hc]
      by_cases hly : (bus LY + 1) % 256 ≥ 153
      · rw [if_pos hly]
        exact ⟨h16, by unfold lenBound; dsimp only; exact hlen⟩
      · rw [if_neg hly]
        exact ⟨h16, by unfold lenBound; dsimp only; exact hlen⟩
    · rw [if_neg hc]
      refine ⟨h16, ?_⟩
      unfold lenBound
      dsimp only
      exact hlen

theorem ppuStep_inv (p : Ppu) (bus : BusState) (b prev : Bool)
    (hInv : Inv p prev) (hadj : (prev && b) = false) :
    match ppuStep (p, bus) b with
    | .error e => e ≠ .fifoOverflow
    | .ok st2 => Inv st2.1 b := by
  obtain ⟨h16, hlen⟩ := hInv
  by_cases hm : p.mode = .DrawingPixels
  · refine ppuStep_drawing p bus b prev hm h16 ?_ hadj
    unfold lenBound at hlen
    rw [hm] at hlen
    exact hlen
  · refine ppuStep_other p bus b hm h16 ?_
    have h15 : lenBound p prev = 15 := by
      unfold lenBound
      cases hmm : p.mode <;> simp_all
    rw [h15] at hlen
    exact hlen

theorem ppuIter_inv : ∀ (n : Nat) (st : Ppu × BusState) (i : Nat),
    Inv st.1 (i % 2 == 0) →
    (∀ e, ppuIter st i n = .error e → e ≠ .fifoOverflow) ∧
    (∀ st2, ppuIter st i n = .ok st2 → Inv st2.1 ((i + n) % 2 == 0)) := by
  intro n
  induction n with
  | zero =>
    intro st i h
    exact ⟨fun e he => by simp [ppuIter] at he, fun st2 h2 => by
      simp [ppuIter] at h2
      rw [← h2]
      simpa using h⟩
  | succ n ih =>
    intro st i h
    have hadj : ((i % 2 == 0) && (i % 2 == 1)) = false := by
      rcases Nat.mod_two_eq_zero_or_one i with hp | hp <;> simp [hp]
    have hstep := ppuStep_inv st.1 st.2 (i % 2 == 1) (i % 2 == 0) h hadj
    constructor
    · intro e he
      rw [ppuIter] at he
      cases hs : ppuStep st (i % 2 == 1) with
      | error e2 =>
        rw [hs] at he
        dsimp only at he
        cases he
        have : ppuStep (st.1, st.2) (i % 2 == 1) = .error e := by
          rw [← hs]
        rw [this] at hstep
        exact hstep
      | ok st2 =>
        rw [hs] at he
        dsimp only at he
        have hst2 : Inv st2.1 ((i + 1) % 2 == 0) := by
          have : ppuStep (st.1, st.2) (i % 2 == 1) = .ok st2 := by
            rw [← hs]
          rw [this] at hstep
          have h2m : (i + 1) % 2 = (i % 2 + 1) % 2 := by omega
          have heq : ((i % 2 == 1) : Bool) = ((i + 1) % 2 == 0) := by
            rcases Nat.mod_two_eq_zero_or_one i with hp | hp <;> rw [h2m, hp] <;> decide
          rw [← heq]
          exact hstep
        exact (ih st2 (i + 1) hst2).1 e he
    · intro st2 h2
      rw [ppuIter] at h2
      cases hs : ppuStep st (i % 2 == 1) with
      | error e2 =>
        rw [hs] at h2
        dsimp only at h2
        cases h2
      | ok stm =>
        rw [hs] at h2
        dsimp only at h2
        have hstm : Inv stm.1 ((i + 1) % 2 == 0) := by
          have : ppuStep (st.1, st.2) (i % 2 == 1) = .ok stm := by
            rw [← hs]
          rw [this] at hstep
          have h2m : (i + 1) % 2 = (i % 2 + 1) % 2 := by omega
          have heq : ((i % 2 == 1) : Bool) = ((i + 1) % 2 == 0) := by
            rcases Nat.mod_two_eq_zero_or_one i with hp | hp <;> rw [h2m, hp] <;> decide
          rw [← heq]
          exact hstep
        have := (ih stm (i + 1) hstm).2 st2 h2
        have harith : (i + 1 + n) % 2 = (i + (n + 1)) % 2 := by omega
        rw [show i + 1 + n = i + (n + 1) by omega] at this
        exact this

theorem inv_mono (p : Ppu) (b : Bool) : Inv p b → Inv p true := by
  rintro ⟨h16, hlen⟩
  refine ⟨h16, le_trans hlen ?_⟩
  unfold lenBound
  have hp1 : prevSub true = 1 := rfl
  have hp2 : prevSub false = 2 := rfl
  cases p.mode <;> cases b <;> dsimp only <;> omega

theorem update_graphics_inv (st : Ppu × BusState) (cycles : Nat) (h : Inv st.1 true) :
    (∀ e, Ppu.update_graphics st cycles = .error e → e ≠ .fifoOverflow) ∧
    (∀ st2, Ppu.update_graphics st cycles = .ok st2 → Inv st2.1 true) := by
  unfold Ppu.update_graphics
  split
  · exact ⟨fun e he => (by cases he), fun st2 h2 => (by cases h2; exact h)⟩
  · have h0 : Inv st.1 ((0 % 2 == 0) : Bool) := by simpa using h
    have := ppuIter_inv cycles st 0 h0
    exact ⟨this.1, fun st2 h2 => inv_mono _ _ (this.2 st2 h2)⟩

theorem runCalls_inv : ∀ (calls : List (Nat × BusState)) (p : Ppu), Inv p true →
    (∀ e, runCalls p calls = .error e → e ≠ .fifoOverflow) ∧
    (∀ p2, runCalls p calls = .ok p2 → Inv p2 true) := by
  intro calls
  induction calls with
  | nil =>
    intro p h
    exact ⟨fun e he => (by cases he), fun p2 h2 => (by cases h2; exact h)⟩
  | cons cb rest ih =>
    intro p h
    have hup := update_graphics_inv (p, cb.2) cb.1 h
    constructor
    · intro e he
      rw [runCalls] at he
      cases hu : Ppu.update_graphics (p, cb.2) cb.1 with
      | error e2 =>
        rw [hu] at he
        dsimp only at he
        cases he
        exact hup.1 e hu
      | ok stm =>
        rw [hu] at he
        dsimp only at he
        exact (ih stm.1 (hup.2 stm hu)).1 e he
    · intro p2 h2
      rw [runCalls] at h2
      cases hu : Ppu.update_graphics (p, cb.2) cb.1 with
      | error e2 =>
        rw [hu] at h2
        dsimp only at h2
        cases h2
      | ok stm =>
        rw [hu] at h2
        dsimp only at h2
        exact (ih stm.1 (hup.2 stm hu)).2 p2 h2

/-- C10: from a freshly constructed PPU, no sequence of `update_graphics`
calls — any cycle counts, any bus contents per call — can reach the
capacity-overflow panic in `Fifo::push`, and every reachable state holds
at most 16 FIFO entries. -/
theorem fifo_no_overflow (pal : Palette) (calls : List (Nat × BusState)) :
    runCalls (Ppu.new pal) calls ≠ .error .fifoOverflow ∧
    ∀ p2, runCalls (Ppu.new pal) calls = .ok p2 →
      p2.background_fifo.pixels.length ≤ 16 := by
  have hinit : Inv (Ppu.new pal) true := by
    refine ⟨rfl, ?_⟩
    show (0 : Nat) ≤ lenBound (Ppu.new pal) true
    exact Nat.zero_le _
  have h := runCalls_inv calls (Ppu.new pal) hinit
  constructor
  · intro he
    exact absurd rfl (h.1 .fifoOverflow he)
  · intro p2 h2
    have hi := h.2 p2 h2
    have hb : lenBound p2 true ≤ 16 := by
      unfold lenBound
      have := advNeeded_bounds p2.fetcher_mode
      cases p2.mode <;> dsimp only <;> omega
    exact le_trans hi.2 hb

end GB
